import Mathlib

/-!
Verification of the `.ani` (RIFF animated cursor) codec in `ani_format.py`.

The Python source is shallowly embedded below.  Bytes are `Nat` values
(each `< 256` in well-formed data), byte strings are `List Nat`, and a
Python `BytesIO` object is a `ByteStream` (backing data plus a cursor).
Fallible Python code (functions that may raise) is embedded as
`Except PyError _`.

The embedded single-frame cursor/icon codec (`CurFormat`) and the bitmap
codec (PIL `DibImageFile` plus the height correction) are out of scope in
the specification and are treated as opaque collaborators: every function
that touches them is parameterised by `curRead`/`bmpRead` (bytes to frame)
and `enc` (frame to bytes).
-/

namespace Ani

/-- Modelled from the spec: `to_int` from `format_core` (a module of this
repository that is not part of the analysed source tree).  Per the spec,
numeric chunk fields are little-endian unsigned integers, so `to_int`
decodes a little-endian byte string into a natural number. -/
def to_int (bs : List Nat) : Nat :=
  bs.foldr (fun b acc => b + 256 * acc) 0

/-- Modelled from the spec: `to_bytes` from `format_core` (a module of this
repository that is not part of the analysed source tree).  Encodes `n` as a
little-endian byte string of length `len` (values that do not fit are
truncated modulo `256 ^ len`). -/
def to_bytes (n len : Nat) : List Nat :=
  match len with
  | 0 => []
  | k + 1 => n % 256 :: to_bytes (n / 256) k

/-- Model of a Python `BytesIO`: backing byte string plus stream position. -/
structure ByteStream where
  data : List Nat
  pos : Nat
deriving DecidableEq, Repr

/-- `BytesIO.read(n)`: return the next `min n remaining` bytes and advance
the position by the number of bytes actually returned. -/
def ByteStream.readBytes (s : ByteStream) (n : Nat) : List Nat × ByteStream :=
  let bs := (s.data.drop s.pos).take n
  (bs, ⟨s.data, s.pos + bs.length⟩)

/-- `BytesIO.write(bs)`: overwrite bytes starting at the current position
(zero-padding if the position is past the end), advance the position. -/
def ByteStream.writeBytes (s : ByteStream) (bs : List Nat) : ByteStream :=
  ⟨s.data.take s.pos ++ List.replicate (s.pos - s.data.length) 0 ++ bs
      ++ s.data.drop (s.pos + bs.length),
    s.pos + bs.length⟩

/-- Chunk tag bytes of `"anih"`. -/
def anihTag : List Nat := [97, 110, 105, 104]
/-- Chunk tag bytes of `"LIST"`. -/
def listTag : List Nat := [76, 73, 83, 84]
/-- Chunk tag bytes of `"rate"`. -/
def rateTag : List Nat := [114, 97, 116, 101]
/-- Chunk tag bytes of `"seq "` (with trailing space). -/
def seqTag : List Nat := [115, 101, 113, 32]
/-- Chunk tag bytes of `"icon"`. -/
def iconTag : List Nat := [105, 99, 111, 110]
/-- Marker bytes of `"fram"` at the head of a LIST payload. -/
def framTag : List Nat := [102, 114, 97, 109]
/-- Magic bytes of `"RIFF"` (`AniFormat.RIFF_MAGIC`). -/
def RIFF_MAGIC : List Nat := [82, 73, 70, 70]
/-- Magic bytes of `"ACON"` (`AniFormat.ACON_MAGIC`). -/
def ACON_MAGIC : List Nat := [65, 67, 79, 78]

/-- Body of `read_chunks`, recursing on a fuel parameter for structural
termination.  Each loop iteration of the Python generator consumes at least
one byte of the stream (the tag read is nonempty whenever the loop does not
return), so with `fuel = bs.length` the fuel is never exhausted; this is
proved as `read_chunks_go_eq` below.  The stream argument is represented by
the list of bytes remaining from the current position, since the generator
only ever reads forward. -/
def read_chunks_go (fuel : Nat) (bs : List Nat) (skip : List (List Nat)) :
    List (List Nat × Nat × List Nat) :=
  match fuel with
  | 0 => []
  | fuel + 1 =>
    -- next_id = buffer.read(4); if next_id == b'': return
    let tag := bs.take 4
    if tag = [] then []
    -- if next_id in skip_chunks: continue
    -- (the Python code consumes ONLY the 4 tag bytes in this branch)
    else if tag ∈ skip then read_chunks_go fuel (bs.drop 4) skip
    else
      -- size = to_int(buffer.read(4)); yield (next_id, size, buffer.read(size))
      let size := to_int ((bs.drop 4).take 4)
      let payload := ((bs.drop 4).drop 4).take size
      (tag, size, payload) :: read_chunks_go fuel (((bs.drop 4).drop 4).drop size) skip

/-- `read_chunks(buffer, skip_chunks)`: tokenize the remaining bytes of a
stream into (tag, declared-size, payload) triples.  `skip` models the
`skip_chunks` set; Python compares the raw tag bytes against its elements,
so elements are byte strings. -/
def read_chunks (bs : List Nat) (skip : List (List Nat)) :
    List (List Nat × Nat × List Nat) :=
  read_chunks_go bs.length bs skip

/-- `write_chunk(buffer, chunk_id, chunk_data)`: tag (first four bytes),
4-byte little-endian length, then the payload. -/
def write_chunk (s : ByteStream) (chunk_id chunk_data : List Nat) : ByteStream :=
  ((s.writeBytes (chunk_id.take 4)).writeBytes
      (to_bytes chunk_data.length 4)).writeBytes chunk_data

/-- The `h_data` dictionary built by `_header_chunk`. -/
structure Header where
  num_frames : Nat
  num_steps : Nat
  width : Nat
  height : Nat
  bit_count : Nat
  num_planes : Nat
  display_rate : Nat
  contains_seq : Bool
  is_in_ico : Bool
deriving DecidableEq, Repr

/-- Exceptions the Python decode path can raise.  The first seven mirror
the seven explicit `raise SyntaxError(...)` sites of `ani_format.py`; the
`key...Missing` constructors model the `KeyError` raised when
`ani_data["seq"]` / `ani_data["rate"]` / `ani_data["list"]` is read but was
never assigned; `indexError` models the `IndexError` of
`ani_data["list"][idx]`; `divError` models the `ZeroDivisionError` of
`i % h_data["num_frames"]` when `num_frames` is zero. -/
inductive PyError where
  | twoHeaders        -- "This ani has 2 headers!"
  | listBeforeHeader  -- "LIST chunk became before header!"
  | listNoFram        -- "LIST chunk should start with 'fram'!"
  | seqBeforeHeader   -- "seq chunk came before header!"
  | seqLenMismatch    -- "Length of sequence chunk does not match the number of steps!"
  | rateBeforeHeader  -- "rate chunk became before header!"
  | rateLenMismatch   -- "Length of rate chunk does not match the number of steps!"
  | notAni            -- "Not a .ani file!"
  | keySeqMissing
  | keyRateMissing
  | keyListMissing
  | indexError
  | divError
deriving DecidableEq, Repr

/-- The shared decode context `ani_data`.  Each field models one dictionary
key; `none` means the key is absent (only `"header"` is pre-set, to `None`).
`F` is the opaque frame-image type produced by the icon/bitmap codecs. -/
structure AniData (F : Type) where
  header : Option Header
  seq : Option (List Nat)
  rate : Option (List Nat)
  list : Option (List F)
deriving DecidableEq, Repr

/-- `_header_chunk(header, data, data_out)`.  Builds `h_data` from the fixed
header layout (dropping a leading 4-byte self-length when the payload is 36
bytes long), stores it, and seeds the default step sequence and rates.
The Python list comprehension `[i % num_frames for i in range(num_steps)]`
raises `ZeroDivisionError` when `num_frames = 0` and `num_steps > 0`; since
that exception aborts the whole decode, it is returned here before any
field update (the half-mutated dictionary is never observable). -/
def header_chunk {F : Type} (header : Option Header) (data : List Nat)
    (data_out : AniData F) : Except PyError (AniData F) :=
  if header.isSome then .error .twoHeaders
  else
    let data := if data.length = 36 then data.drop 4 else data
    let flags := to_int ((data.drop 28).take 4)
    let h_data : Header :=
      { num_frames := to_int (data.take 4)
        num_steps := to_int ((data.drop 4).take 4)
        width := to_int ((data.drop 8).take 4)
        height := to_int ((data.drop 12).take 4)
        bit_count := to_int ((data.drop 16).take 4)
        num_planes := 1
        display_rate := to_int ((data.drop 24).take 4)
        contains_seq := (flags >>> 1) &&& 1 == 1
        is_in_ico := flags &&& 1 == 1 }
    if h_data.num_frames = 0 ∧ h_data.num_steps ≠ 0 then .error .divError
    else
      .ok { data_out with
              header := some h_data
              seq := some ((List.range h_data.num_steps).map (· % h_data.num_frames))
              rate := some (List.replicate h_data.num_steps h_data.display_rate) }

/-- `_list_chunk(header, data, data_out)`.  After checking the `"fram"`
marker, tokenizes the rest of the payload and decodes every `"icon"`
sub-chunk through one of the two opaque codecs, selected by the header's
`is_in_ico` flag. -/
def list_chunk {F : Type} (curRead bmpRead : List Nat → F)
    (header : Option Header) (data : List Nat) (data_out : AniData F) :
    Except PyError (AniData F) :=
  match header with
  | none => .error .listBeforeHeader
  | some h =>
    if data.take 4 ≠ framTag then .error .listNoFram
    else
      let cursor_list :=
        ((read_chunks (data.drop 4) []).filter (fun c => c.1 == iconTag)).map
          (fun c => if h.is_in_ico then curRead c.2.2 else bmpRead c.2.2)
      .ok { data_out with list := some cursor_list }

/-- The list comprehension `[to_int(data[i:i+4]) for i in range(0, len(data), 4)]`
shared by `_seq_chunk` and `_rate_chunk`: 4-byte little-endian integers, with
a final partial (1- to 3-byte) group when the length is not a multiple of 4. -/
def decode_u32s : List Nat → List Nat
  | [] => []
  | [a] => [to_int [a]]
  | [a, b] => [to_int [a, b]]
  | [a, b, c] => [to_int [a, b, c]]
  | a :: b :: c :: d :: rest => to_int [a, b, c, d] :: decode_u32s rest

/-- `_seq_chunk(header, data, data_out)`.  Note the guard is the floor
division `len(data) // 4 != num_steps`. -/
def seq_chunk {F : Type} (header : Option Header) (data : List Nat)
    (data_out : AniData F) : Except PyError (AniData F) :=
  match header with
  | none => .error .seqBeforeHeader
  | some h =>
    if data.length / 4 ≠ h.num_steps then .error .seqLenMismatch
    else .ok { data_out with seq := some (decode_u32s data) }

/-- `_rate_chunk(header, data, data_out)`.  Same shape as `_seq_chunk`. -/
def rate_chunk {F : Type} (header : Option Header) (data : List Nat)
    (data_out : AniData F) : Except PyError (AniData F) :=
  match header with
  | none => .error .rateBeforeHeader
  | some h =>
    if data.length / 4 ≠ h.num_steps then .error .rateLenMismatch
    else .ok { data_out with rate := some (decode_u32s data) }

/-- `AniFormat.check(first_bytes)`. -/
def check (first_bytes : List Nat) : Bool :=
  (first_bytes.take 4 == RIFF_MAGIC) && ((first_bytes.drop 8).take 4 == ACON_MAGIC)

/-- The chunk-dispatch loop of `AniFormat.read`: for every tokenized chunk
whose tag is a key of `AniFormat.CHUNKS`, run the handler on the shared
context (passing the current `ani_data["header"]` as its first argument);
unknown tags are ignored.  The first raised exception aborts the loop. -/
def processChunks {F : Type} (curRead bmpRead : List Nat → F) :
    List (List Nat × Nat × List Nat) → AniData F → Except PyError (AniData F)
  | [], d => .ok d
  | (tag, _, payload) :: rest, d =>
    match
      (if tag = anihTag then header_chunk d.header payload d
       else if tag = listTag then list_chunk curRead bmpRead d.header payload d
       else if tag = rateTag then rate_chunk d.header payload d
       else if tag = seqTag then seq_chunk d.header payload d
       else .ok d) with
    | .error e => .error e
    | .ok d' => processChunks curRead bmpRead rest d'

/-- The final assembly loop of `AniFormat.read`:
`for idx, rate in zip(seq, rate): ani_cur.append((ani_data["list"][idx], int((rate * 1000) / 60)))`.
`ani_data["list"]` is only looked up inside the loop body, so a missing
`"list"` key raises only when the zip is nonempty.  `int((rate * 1000) / 60)`
truncates the float quotient toward zero; for every rate below `2 ^ 32`
(all rates decodable from a 4-byte field) the CPython double division is
close enough to the exact value that the result is exactly
`rate * 1000 / 60` in natural-number (floor) division, which is how it is
embedded here. -/
def assembleLoop {F : Type} :
    List (Nat × Nat) → Option (List F) → Except PyError (List (F × Nat))
  | [], _ => .ok []
  | (idx, rate) :: rest, lst =>
    match lst with
    | none => .error .keyListMissing
    | some l =>
      if h : idx < l.length then
        match assembleLoop rest lst with
        | .error e => .error e
        | .ok tl => .ok ((l.get ⟨idx, h⟩, rate * 1000 / 60) :: tl)
      else .error .indexError

/-- Reads `ani_data["seq"]` and `ani_data["rate"]` (raising `KeyError` when
absent) and runs the assembly loop. -/
def assemble {F : Type} (d : AniData F) : Except PyError (List (F × Nat)) :=
  match d.seq with
  | none => .error .keySeqMissing
  | some sq =>
    match d.rate with
    | none => .error .keyRateMissing
    | some rt => assembleLoop (sq.zip rt) d.list

/-- `AniFormat.read(cur_file)`: check the 12-byte magic prologue, dispatch
all chunks of the remainder, then assemble the timed frame sequence. -/
def read {F : Type} (curRead bmpRead : List Nat → F) (s : ByteStream) :
    Except PyError (List (F × Nat)) :=
  let r := s.readBytes 12
  if check r.1 then
    match processChunks curRead bmpRead
        (read_chunks (r.2.data.drop r.2.pos) []) ⟨none, none, none, none⟩ with
    | .error e => .error e
    | .ok d => assemble d
  else .error .notAni

/-- Python's `round` on the exact value `n / d` (`d > 0`): round half to
even.  `AniFormat.write` computes `round((delay * 60) / 1000)` with a float
division; for every delay relevant here (far below `2 ^ 46`) the float
quotient is faithful enough that rounding it half-to-even agrees with
rounding the exact rational, which is what this function does. -/
def pyRound (n d : Nat) : Nat :=
  let q := n / d
  let r := n % d
  if 2 * r < d then q
  else if d < 2 * r then q + 1
  else if q % 2 = 0 then q else q + 1

/-- The header record that `_header_chunk` reconstructs from the header
bytes `AniFormat.write` emits for an `n`-frame cursor. -/
def writeHeaderRec (n : Nat) : Header :=
  { num_frames := n, num_steps := n, width := 0, height := 0, bit_count := 0
    num_planes := 1, display_rate := 10, contains_seq := false, is_in_ico := true }

/-- The 36-byte header buffer built by `AniFormat.write`: a `bytearray(36)`
of zeros with `[0:4] = 36`, `[4:8] = len(cursor)`, `[8:12] = len(cursor)`,
`[28:32] = 10` and `[32:36] = 1` patched in (the four untouched fields
`[12:28]` stay zero). -/
def buildHeader (n : Nat) : List Nat :=
  to_bytes 36 4 ++ (to_bytes n 4 ++ (to_bytes n 4 ++ (List.replicate 16 0
    ++ (to_bytes 10 4 ++ to_bytes 1 4))))

/-- One `"icon"` entry appended to `list_data` by the encode loop:
`b"icon"`, 4-byte length, then the encoded cursor bytes. -/
def icon_entry (cur_data : List Nat) : List Nat :=
  iconTag ++ to_bytes cur_data.length 4 ++ cur_data

/-- The full `list_data` buffer of `AniFormat.write`: `b"fram"` followed by
one `icon_entry` per frame (each frame encoded by the opaque `CurFormat`
codec `enc`). -/
def list_payload {F : Type} (enc : F → List Nat) (cursor : List (F × Nat)) :
    List Nat :=
  framTag ++ (cursor.map (fun p => icon_entry (enc p.1))).flatten

/-- The full `delay_data` buffer of `AniFormat.write`: per frame the delay
converted back to jiffies, `round((delay * 60) / 1000)`, as 4 bytes. -/
def rate_payload {F : Type} (cursor : List (F × Nat)) : List Nat :=
  (cursor.map (fun p => to_bytes (pyRound (p.2 * 60) 1000) 4)).flatten

/-- `AniFormat.write(cursor, out)`: magic prologue with a zero length
placeholder, `anih` chunk, `LIST` chunk, `rate` chunk, then the length
backpatch `out.seek(4); out.write(to_bytes(out.tell() - 8, 4))`.  Returns
the final stream (data plus position). -/
def write {F : Type} (enc : F → List Nat) (cursor : List (F × Nat))
    (out : ByteStream) : ByteStream :=
  let out := out.writeBytes RIFF_MAGIC
  let out := out.writeBytes [0, 0, 0, 0]
  let out := out.writeBytes ACON_MAGIC
  let out := write_chunk out anihTag (buildHeader cursor.length)
  let out := write_chunk out listTag (list_payload enc cursor)
  let out := write_chunk out rateTag (rate_payload cursor)
  let entire_file_len := out.pos - 8
  let out : ByteStream := ⟨out.data, 4⟩
  out.writeBytes (to_bytes entire_file_len 4)

/-- Bytes produced by one `write_chunk` call. -/
def chunkBytes (t pl : List Nat) : List Nat :=
  t.take 4 ++ (to_bytes pl.length 4 ++ pl)

/-- The three chunks `AniFormat.write` emits after the 12-byte prologue. -/
def contentTail {F : Type} (enc : F → List Nat) (cursor : List (F × Nat)) :
    List Nat :=
  chunkBytes anihTag (buildHeader cursor.length)
    ++ (chunkBytes listTag (list_payload enc cursor)
      ++ chunkBytes rateTag (rate_payload cursor))

/-- The complete byte string `AniFormat.write` leaves in an initially empty
stream, with the length field backpatched at offset 4. -/
def fileAni {F : Type} (enc : F → List Nat) (cursor : List (F × Nat)) :
    List Nat :=
  RIFF_MAGIC ++ (to_bytes (12 + (contentTail enc cursor).length - 8) 4
    ++ (ACON_MAGIC ++ contentTail enc cursor))


/-! ### Concrete demonstration inputs used by the claim theorems -/

/-- A concrete header record (1 frame, 1 step, display rate 6 jiffies,
stored-as-icon flag set). -/
def hdr1 : Header :=
  { num_frames := 1, num_steps := 1, width := 0, height := 0, bit_count := 0
    num_planes := 1, display_rate := 6, contains_seq := false, is_in_ico := true }

/-- A concrete decode context whose header is `hdr1`. -/
def d0 : AniData (List Nat) := ⟨some hdr1, none, none, none⟩

/-- A stream of two well-formed chunks: tag `"skip"` with a 4-byte payload,
then tag `"good"` with an empty payload. -/
def skipDemoStream : List Nat :=
  [115, 107, 105, 112, 4, 0, 0, 0, 65, 65, 65, 65]
    ++ [103, 111, 111, 100, 0, 0, 0, 0]

/-- A structurally valid one-frame container whose `rate` chunk carries the
single rate value 1 jiffy (header: 1 frame, 1 step, display rate 6,
flags = 1, so frames decode through the icon-container codec). -/
def rateDemoAni : List Nat :=
  [82, 73, 70, 70, 0, 0, 0, 0, 65, 67, 79, 78]
    ++ [97, 110, 105, 104, 36, 0, 0, 0]
    ++ [36, 0, 0, 0, 1, 0, 0, 0, 1, 0, 0, 0, 0, 0, 0, 0, 0, 0, 0, 0,
        0, 0, 0, 0, 0, 0, 0, 0, 6, 0, 0, 0, 1, 0, 0, 0]
    ++ [76, 73, 83, 84, 13, 0, 0, 0]
    ++ [102, 114, 97, 109, 105, 99, 111, 110, 1, 0, 0, 0, 7]
    ++ [114, 97, 116, 101, 4, 0, 0, 0, 1, 0, 0, 0]

/-- A structurally valid one-frame container whose `seq ` chunk contains the
single entry 5, an index far beyond its one-element frame list. -/
def oobSeqAni : List Nat :=
  [82, 73, 70, 70, 0, 0, 0, 0, 65, 67, 79, 78]
    ++ [97, 110, 105, 104, 36, 0, 0, 0]
    ++ [36, 0, 0, 0, 1, 0, 0, 0, 1, 0, 0, 0, 0, 0, 0, 0, 0, 0, 0, 0,
        0, 0, 0, 0, 0, 0, 0, 0, 6, 0, 0, 0, 1, 0, 0, 0]
    ++ [76, 73, 83, 84, 13, 0, 0, 0]
    ++ [102, 114, 97, 109, 105, 99, 111, 110, 1, 0, 0, 0, 7]
    ++ [115, 101, 113, 32, 4, 0, 0, 0, 5, 0, 0, 0]

/-- A container with two `anih` chunks (both 36 bytes). -/
def dupHeaderAni : List Nat :=
  [82, 73, 70, 70, 0, 0, 0, 0, 65, 67, 79, 78]
    ++ [97, 110, 105, 104, 36, 0, 0, 0]
    ++ [36, 0, 0, 0, 1, 0, 0, 0, 1, 0, 0, 0, 0, 0, 0, 0, 0, 0, 0, 0,
        0, 0, 0, 0, 0, 0, 0, 0, 6, 0, 0, 0, 1, 0, 0, 0]
    ++ [97, 110, 105, 104, 36, 0, 0, 0]
    ++ [36, 0, 0, 0, 1, 0, 0, 0, 1, 0, 0, 0, 0, 0, 0, 0, 0, 0, 0, 0,
        0, 0, 0, 0, 0, 0, 0, 0, 6, 0, 0, 0, 1, 0, 0, 0]

end Ani

namespace Ani

/-! ### Basic facts about the byte conversions and the tokenizer -/

theorem length_to_bytes (n len : Nat) : (to_bytes n len).length = len := by
  induction len generalizing n with
  | zero => rfl
  | succ k ih => simp [to_bytes, ih]

theorem to_int_cons (b : Nat) (bs : List Nat) :
    to_int (b :: bs) = b + 256 * to_int bs := rfl

theorem to_int_to_bytes (n len : Nat) : to_int (to_bytes n len) = n % 256 ^ len := by
  induction len generalizing n with
  | zero => simp [to_bytes, to_int, Nat.mod_one]
  | succ k ih =>
    rw [to_bytes, to_int_cons, ih, pow_succ', Nat.mod_mul]

theorem read_chunks_go_nil (fuel : Nat) (skip : List (List Nat)) :
    read_chunks_go fuel [] skip = [] := by
  cases fuel <;> rfl

/-- The fuel of `read_chunks_go` is irrelevant as soon as it is at least the
number of remaining bytes: every iteration consumes at least one byte. -/
theorem read_chunks_go_eq (fuel : Nat) (bs : List Nat) (skip : List (List Nat))
    (h : bs.length ≤ fuel) :
    read_chunks_go fuel bs skip = read_chunks_go bs.length bs skip := by
  induction fuel using Nat.strong_induction_on generalizing bs with
  | _ fuel ih =>
    rcases bs with _ | ⟨b, rest⟩
    · rw [read_chunks_go_nil, read_chunks_go_nil]
    · rcases fuel with _ | f
      · simp at h
      · have hlen : rest.length ≤ f := by simpa using h
        have htake : (b :: rest).take 4 = b :: rest.take 3 := rfl
        show read_chunks_go (f + 1) (b :: rest) skip
            = read_chunks_go (rest.length + 1) (b :: rest) skip
        rw [read_chunks_go, read_chunks_go]
        simp only [htake]
        by_cases hskip : b :: rest.take 3 ∈ skip
        · simp only [if_neg (List.cons_ne_nil b (rest.take 3)), if_pos hskip]
          rw [ih f (Nat.lt_succ_self f) _
              (by simp only [List.length_drop, List.length_cons]; omega),
            ih rest.length (by omega) _
              (by simp only [List.length_drop, List.length_cons]; omega)]
        · simp only [if_neg (List.cons_ne_nil b (rest.take 3)), if_neg hskip]
          congr 1
          rw [ih f (Nat.lt_succ_self f) _
              (by simp only [List.length_drop, List.length_cons]; omega),
            ih rest.length (by omega) _
              (by simp only [List.length_drop, List.length_cons]; omega)]

theorem read_chunks_nil (skip : List (List Nat)) : read_chunks [] skip = [] := rfl

/-- One unfolding of the tokenizer loop on a nonempty stream whose leading
tag is not skipped. -/
theorem read_chunks_cons (bs : List Nat) (skip : List (List Nat))
    (hne : bs ≠ []) (hskip : bs.take 4 ∉ skip) :
    read_chunks bs skip =
      (bs.take 4, to_int ((bs.drop 4).take 4),
        ((bs.drop 4).drop 4).take (to_int ((bs.drop 4).take 4)))
        :: read_chunks (((bs.drop 4).drop 4).drop (to_int ((bs.drop 4).take 4))) skip := by
  rcases bs with _ | ⟨b, rest⟩
  · exact absurd rfl hne
  · have htake : (b :: rest).take 4 = b :: rest.take 3 := rfl
    show read_chunks_go (rest.length + 1) (b :: rest) skip = _
    rw [read_chunks_go]
    simp only [htake] at hskip ⊢
    rw [if_neg (List.cons_ne_nil b (rest.take 3)), if_neg hskip]
    rw [read_chunks]
    congr 1
    exact read_chunks_go_eq _ _ _
      (by simp only [List.length_drop, List.length_cons]; omega)

/-- One unfolding of the tokenizer loop on a nonempty stream whose leading
tag is in the skip set: only the four tag bytes are consumed. -/
theorem read_chunks_skip (bs : List Nat) (skip : List (List Nat))
    (hne : bs ≠ []) (hskip : bs.take 4 ∈ skip) :
    read_chunks bs skip = read_chunks (bs.drop 4) skip := by
  rcases bs with _ | ⟨b, rest⟩
  · exact absurd rfl hne
  · have htake : (b :: rest).take 4 = b :: rest.take 3 := rfl
    show read_chunks_go (rest.length + 1) (b :: rest) skip = _
    rw [read_chunks_go]
    simp only [htake] at hskip ⊢
    rw [if_pos hskip, read_chunks]
    exact read_chunks_go_eq _ _ _
      (by simp only [List.length_drop, List.length_cons]; omega)

/-- Tokenizing a well-formed chunk (4-byte tag, correct little-endian
length field, full payload) followed by arbitrary bytes yields that chunk
and continues with the rest. -/
theorem read_chunks_wf (tag pl rest : List Nat) (skip : List (List Nat))
    (h4 : tag.length = 4) (hskip : tag ∉ skip) (hpl : pl.length < 2 ^ 32) :
    read_chunks (tag ++ (to_bytes pl.length 4 ++ (pl ++ rest))) skip
      = (tag, pl.length, pl) :: read_chunks rest skip := by
  have hne : tag ++ (to_bytes pl.length 4 ++ (pl ++ rest)) ≠ [] := by
    intro hcon
    have := congrArg List.length hcon
    simp [h4] at this
  have htag : (tag ++ (to_bytes pl.length 4 ++ (pl ++ rest))).take 4 = tag :=
    List.take_left' h4
  have hdrop : (tag ++ (to_bytes pl.length 4 ++ (pl ++ rest))).drop 4
      = to_bytes pl.length 4 ++ (pl ++ rest) := List.drop_left' h4
  have hsz : (to_bytes pl.length 4 ++ (pl ++ rest)).take 4 = to_bytes pl.length 4 :=
    List.take_left' (length_to_bytes _ _)
  have hsz2 : (to_bytes pl.length 4 ++ (pl ++ rest)).drop 4 = pl ++ rest :=
    List.drop_left' (length_to_bytes _ _)
  have hint : to_int (to_bytes pl.length 4) = pl.length := by
    rw [to_int_to_bytes]
    exact Nat.mod_eq_of_lt (by norm_num at hpl ⊢; omega)
  rw [read_chunks_cons _ _ hne (by rw [htag]; exact hskip), htag, hdrop, hsz,
    hsz2, hint, List.take_left, List.drop_left]

/-! ### The encoder writes by appending -/

theorem writeBytes_append (l bs : List Nat) :
    ByteStream.writeBytes ⟨l, l.length⟩ bs = ⟨l ++ bs, (l ++ bs).length⟩ := by
  simp [ByteStream.writeBytes, List.drop_eq_nil_of_le]

theorem write_chunk_append (l t pl : List Nat) :
    write_chunk ⟨l, l.length⟩ t pl
      = ⟨l ++ chunkBytes t pl, (l ++ chunkBytes t pl).length⟩ := by
  rw [write_chunk, writeBytes_append, writeBytes_append, writeBytes_append]
  simp [chunkBytes, List.append_assoc]

end Ani

namespace Ani

theorem buildHeader_length (n : Nat) : (buildHeader n).length = 36 := by
  simp [buildHeader, length_to_bytes]

theorem write_eq {F : Type} (enc : F → List Nat) (cursor : List (F × Nat)) :
    write enc cursor ⟨[], 0⟩ = ⟨fileAni enc cursor, 8⟩ := by
  have h0 : (⟨[], 0⟩ : ByteStream) = ⟨[], List.length ([] : List Nat)⟩ := rfl
  rw [h0]
  simp only [write, writeBytes_append, write_chunk_append]
  set L := (((((([] : List Nat) ++ RIFF_MAGIC) ++ [0, 0, 0, 0]) ++ ACON_MAGIC)
    ++ chunkBytes anihTag (buildHeader cursor.length))
    ++ chunkBytes listTag (list_payload enc cursor))
    ++ chunkBytes rateTag (rate_payload cursor) with hL
  have hL' : L = RIFF_MAGIC
      ++ ([0, 0, 0, 0] ++ (ACON_MAGIC ++ contentTail enc cursor)) := by
    simp [hL, contentTail, List.append_assoc]
  have hlen : L.length = 12 + (contentTail enc cursor).length := by
    rw [hL']; simp [RIFF_MAGIC, ACON_MAGIC, List.length_append]; omega
  have hlen12 : 12 ≤ L.length := by omega
  simp only [ByteStream.writeBytes]
  have hrep : (4 - L.length) = 0 := by omega
  have htake : L.take 4 = RIFF_MAGIC := by
    rw [hL']; exact List.take_left' rfl
  have hdrop : L.drop (4 + (to_bytes (L.length - 8) 4).length)
      = ACON_MAGIC ++ contentTail enc cursor := by
    rw [length_to_bytes]
    have : L = (RIFF_MAGIC ++ [0, 0, 0, 0])
        ++ (ACON_MAGIC ++ contentTail enc cursor) := by
      rw [hL']; simp [List.append_assoc]
    rw [this]
    exact List.drop_left' rfl
  rw [hrep, htake, hdrop]
  simp [fileAni, length_to_bytes, List.append_assoc, hlen]

end Ani

namespace Ani

/-! ### Generic invariants of the tokenizer (used for claim C9) -/

theorem read_chunks_go_mem (fuel : Nat) :
    ∀ (bs : List Nat) (skip : List (List Nat)) (t : List Nat) (sz : Nat)
      (pl : List Nat), (t, sz, pl) ∈ read_chunks_go fuel bs skip →
      pl.length ≤ sz ∧ t ≠ [] ∧ t.length ≤ 4 := by
  induction fuel with
  | zero => intro bs skip t sz pl h; simp [read_chunks_go] at h
  | succ f ih =>
    intro bs skip t sz pl h
    rw [read_chunks_go] at h
    by_cases h1 : bs.take 4 = []
    · rw [if_pos h1] at h; simp at h
    · rw [if_neg h1] at h
      by_cases h2 : bs.take 4 ∈ skip
      · rw [if_pos h2] at h; exact ih _ _ _ _ _ h
      · rw [if_neg h2] at h
        rcases List.mem_cons.mp h with h3 | h3
        · simp only [Prod.mk.injEq] at h3
          obtain ⟨rfl, rfl, rfl⟩ := h3
          refine ⟨?_, h1, ?_⟩
          · rw [List.length_take]; exact min_le_left _ _
          · rw [List.length_take]; exact min_le_left _ _
        · exact ih _ _ _ _ _ h3

theorem read_chunks_mem (bs : List Nat) (skip : List (List Nat))
    (t : List Nat) (sz : Nat) (pl : List Nat)
    (h : (t, sz, pl) ∈ read_chunks bs skip) :
    pl.length ≤ sz ∧ t ≠ [] ∧ t.length ≤ 4 :=
  read_chunks_go_mem _ _ _ _ _ _ h

/-! ### Handler shape lemmas (used for claims C5 and C6) -/

theorem header_chunk_none_ok {F : Type} (pl : List Nat) (d d' : AniData F)
    (h : header_chunk none pl d = .ok d') :
    ∃ hd : Header, d' = { d with
      header := some hd
      seq := some ((List.range hd.num_steps).map (· % hd.num_frames))
      rate := some (List.replicate hd.num_steps hd.display_rate) } := by
  simp only [header_chunk, Option.isSome_none, Bool.false_eq_true, if_false] at h
  split at h
  · split at h
    · cases h
    · cases h; exact ⟨_, rfl⟩
  · split at h
    · cases h
    · cases h; exact ⟨_, rfl⟩

theorem list_chunk_ok_shape {F : Type} (cr br : List Nat → F)
    (hdr : Option Header) (pl : List Nat) (d d2 : AniData F)
    (h : list_chunk cr br hdr pl d = .ok d2) :
    d2.header = d.header ∧ d2.seq = d.seq ∧ d2.rate = d.rate := by
  cases hdr with
  | none => cases h
  | some hh =>
    simp only [list_chunk] at h
    split at h
    · cases h
    · cases h; exact ⟨rfl, rfl, rfl⟩

/-- Running the dispatch loop over chunks containing no `seq ` and no
`rate` chunk either leaves header/seq/rate untouched or leaves them at the
defaults seeded by one successfully processed `anih` chunk. -/
theorem processChunks_no_explicit {F : Type} (cr br : List Nat → F) :
    ∀ (chunks : List (List Nat × Nat × List Nat)) (d d' : AniData F),
    (∀ c ∈ chunks, c.1 ≠ seqTag ∧ c.1 ≠ rateTag) →
    processChunks cr br chunks d = .ok d' →
    (d'.header = d.header ∧ d'.seq = d.seq ∧ d'.rate = d.rate)
    ∨ (∃ hd : Header, d'.header = some hd
        ∧ d'.seq = some ((List.range hd.num_steps).map (· % hd.num_frames))
        ∧ d'.rate = some (List.replicate hd.num_steps hd.display_rate)) := by
  intro chunks
  induction chunks with
  | nil =>
    intro d d' _ h
    rw [processChunks] at h
    cases h
    exact Or.inl ⟨rfl, rfl, rfl⟩
  | cons c rest ih =>
    intro d d' hno h
    obtain ⟨tag, sz, pl⟩ := c
    have hc := hno _ (List.mem_cons_self _ _)
    have hrest : ∀ c ∈ rest, c.1 ≠ seqTag ∧ c.1 ≠ rateTag :=
      fun c hc' => hno c (List.mem_cons_of_mem _ hc')
    rw [processChunks] at h
    by_cases h1 : tag = anihTag
    · rw [if_pos h1] at h
      cases hdr : d.header with
      | some hh => rw [hdr] at h; simp [header_chunk] at h
      | none =>
        rw [hdr] at h
        cases hok : header_chunk (none : Option Header) pl d with
        | error e => rw [hok] at h; cases h
        | ok d2 =>
          rw [hok] at h
          obtain ⟨hd2, rfl⟩ := header_chunk_none_ok pl d d2 hok
          rcases ih _ _ hrest h with h2 | h2
          · exact Or.inr ⟨hd2, h2.1, h2.2.1, h2.2.2⟩
          · exact Or.inr h2
    · rw [if_neg h1] at h
      by_cases h2 : tag = listTag
      · rw [if_pos h2] at h
        cases hok : list_chunk cr br d.header pl d with
        | error e => rw [hok] at h; cases h
        | ok d2 =>
          rw [hok] at h
          have hsh := list_chunk_ok_shape cr br d.header pl d d2 hok
          rcases ih _ _ hrest h with h3 | h3
          · exact Or.inl ⟨by rw [h3.1, hsh.1], by rw [h3.2.1, hsh.2.1],
              by rw [h3.2.2, hsh.2.2]⟩
          · exact Or.inr h3
      · rw [if_neg h2, if_neg hc.2, if_neg hc.1] at h
        exact ih _ _ hrest h

/-! ### Round-trip infrastructure (used for claim C1) -/

theorem range_mod_self (n : Nat) : (List.range n).map (· % n) = List.range n := by
  have h : ∀ i ∈ List.range n, i % n = id i :=
    fun i hi => Nat.mod_eq_of_lt (List.mem_range.mp hi)
  rw [List.map_congr_left h, List.map_id]

theorem to_int_to_bytes_of_lt (n : Nat) (h : n < 2 ^ 32) :
    to_int (to_bytes n 4) = n := by
  rw [to_int_to_bytes]
  exact Nat.mod_eq_of_lt (by norm_num at h ⊢; omega)

/-- Decoding the header bytes written by `AniFormat.write` for an `n`-frame
cursor succeeds and seeds the identity default sequence and the default
rates `[10] * n`. -/
theorem header_chunk_buildHeader {F : Type} (n : Nat) (hn : n < 2 ^ 32)
    (d : AniData F) :
    header_chunk none (buildHeader n) d = .ok { d with
      header := some (writeHeaderRec n)
      seq := some ((List.range n).map (· % n))
      rate := some (List.replicate n 10) } := by
  have hlen : (buildHeader n).length = 36 := buildHeader_length n
  have hB : (buildHeader n).drop 4
      = to_bytes n 4 ++ (to_bytes n 4 ++ (List.replicate 16 0
        ++ (to_bytes 10 4 ++ to_bytes 1 4))) := by
    rw [buildHeader]; exact List.drop_left' (length_to_bytes _ _)
  have h0 : to_int (((buildHeader n).drop 4).take 4) = n := by
    rw [hB, List.take_left' (length_to_bytes _ _)]
    exact to_int_to_bytes_of_lt n hn
  have h4d : ((buildHeader n).drop 4).drop 4
      = to_bytes n 4 ++ (List.replicate 16 0 ++ (to_bytes 10 4 ++ to_bytes 1 4)) := by
    rw [hB]; exact List.drop_left' (length_to_bytes _ _)
  have h4 : to_int ((((buildHeader n).drop 4).drop 4).take 4) = n := by
    rw [h4d, List.take_left' (length_to_bytes _ _)]
    exact to_int_to_bytes_of_lt n hn
  have h8d : ((buildHeader n).drop 4).drop 8
      = List.replicate 16 0 ++ (to_bytes 10 4 ++ to_bytes 1 4) := by
    rw [hB, show to_bytes n 4 ++ (to_bytes n 4 ++ (List.replicate 16 0
        ++ (to_bytes 10 4 ++ to_bytes 1 4)))
      = (to_bytes n 4 ++ to_bytes n 4) ++ (List.replicate 16 0
        ++ (to_bytes 10 4 ++ to_bytes 1 4)) by simp [List.append_assoc]]
    exact List.drop_left' (by simp [length_to_bytes])
  have h8 : to_int ((((buildHeader n).drop 4).drop 8).take 4) = 0 := by
    rw [h8d, List.take_append_of_le_length (by simp), List.take_replicate]
    rfl
  have h12 : to_int ((((buildHeader n).drop 4).drop 12).take 4) = 0 := by
    have hd : ((buildHeader n).drop 4).drop 12 = (((buildHeader n).drop 4).drop 8).drop 4 := by
      simp [List.drop_drop]
    rw [hd, h8d, List.drop_append_of_le_length (by simp), List.drop_replicate]
    rw [List.take_append_of_le_length (by simp), List.take_replicate]
    rfl
  have h16 : to_int ((((buildHeader n).drop 4).drop 16).take 4) = 0 := by
    have hd : ((buildHeader n).drop 4).drop 16 = (((buildHeader n).drop 4).drop 8).drop 8 := by
      simp [List.drop_drop]
    rw [hd, h8d, List.drop_append_of_le_length (by simp), List.drop_replicate]
    rw [List.take_append_of_le_length (by simp), List.take_replicate]
    rfl
  have h24d : ((buildHeader n).drop 4).drop 24
      = to_bytes 10 4 ++ to_bytes 1 4 := by
    have hd : ((buildHeader n).drop 4).drop 24 = (((buildHeader n).drop 4).drop 8).drop 16 := by
      simp [List.drop_drop]
    rw [hd, h8d]
    exact List.drop_left' (by simp)
  have h24 : to_int ((((buildHeader n).drop 4).drop 24).take 4) = 10 := by
    rw [h24d, List.take_left' (length_to_bytes _ _)]
    rfl
  have h28 : to_int ((((buildHeader n).drop 4).drop 28).take 4) = 1 := by
    have hd : ((buildHeader n).drop 4).drop 28 = (((buildHeader n).drop 4).drop 24).drop 4 := by
      simp [List.drop_drop]
    rw [hd, h24d, List.drop_left' (length_to_bytes _ _),
      List.take_of_length_le (by rw [length_to_bytes])]
    rfl
  have hif : (if (buildHeader n).length = 36 then (buildHeader n).drop 4
      else buildHeader n) = (buildHeader n).drop 4 := by rw [hlen]; simp
  simp only [header_chunk, Option.isSome_none, Bool.false_eq_true, if_false, hif,
    h0, h4, h8, h12, h16, h24, h28]
  rw [if_neg (by omega)]
  rfl

/-- Tokenizing the icon entries of the LIST payload recovers one `"icon"`
chunk per frame, carrying exactly the encoded frame bytes. -/
theorem read_chunks_icons {F : Type} (enc : F → List Nat) (cursor : List (F × Nat))
    (henc : ∀ p ∈ cursor, (enc p.1).length < 2 ^ 32) :
    read_chunks ((cursor.map (fun p => icon_entry (enc p.1))).flatten) []
      = cursor.map (fun p => (iconTag, (enc p.1).length, enc p.1)) := by
  induction cursor with
  | nil => rfl
  | cons p rest ih =>
    rw [List.map_cons, List.flatten_cons, icon_entry]
    rw [show (iconTag ++ to_bytes (enc p.1).length 4 ++ enc p.1)
        ++ (rest.map (fun p => icon_entry (enc p.1))).flatten
      = iconTag ++ (to_bytes (enc p.1).length 4 ++ (enc p.1
        ++ (rest.map (fun p => icon_entry (enc p.1))).flatten)) by
      simp [List.append_assoc]]
    rw [read_chunks_wf iconTag (enc p.1)
      ((rest.map (fun p => icon_entry (enc p.1))).flatten) [] rfl
      (List.not_mem_nil _) (henc p (List.mem_cons_self _ _))]
    rw [ih (fun q hq => henc q (List.mem_cons_of_mem _ hq)), List.map_cons]

/-- Decoding the LIST payload written by `AniFormat.write` under a header
with the icon-container flag set yields one decoded frame per cursor entry. -/
theorem list_chunk_payload {F : Type} (cr br : List Nat → F) (enc : F → List Nat)
    (hd : Header) (hico : hd.is_in_ico = true) (cursor : List (F × Nat))
    (henc : ∀ p ∈ cursor, (enc p.1).length < 2 ^ 32) (d : AniData F) :
    list_chunk cr br (some hd) (list_payload enc cursor) d
      = .ok { d with list := some (cursor.map (fun p => cr (enc p.1))) } := by
  have htake : (list_payload enc cursor).take 4 = framTag := by
    rw [list_payload]; exact List.take_left' rfl
  have hdrop : (list_payload enc cursor).drop 4
      = (cursor.map (fun p => icon_entry (enc p.1))).flatten := by
    rw [list_payload]; exact List.drop_left' rfl
  simp only [list_chunk]
  rw [if_neg (by rw [htake]; exact fun hcon => hcon rfl), hdrop,
    read_chunks_icons enc cursor henc]
  have hfil : ((cursor.map (fun p => (iconTag, (enc p.1).length, enc p.1))).filter
      (fun c => c.1 == iconTag)) = cursor.map (fun p => (iconTag, (enc p.1).length, enc p.1)) := by
    rw [List.filter_eq_self]
    intro a ha
    obtain ⟨q, _, rfl⟩ := List.mem_map.mp ha
    simp
  rw [hfil, List.map_map]
  have hmap : List.map ((fun c => if hd.is_in_ico = true then cr c.2.2 else br c.2.2)
      ∘ fun p => (iconTag, (enc p.1).length, enc p.1)) cursor
      = List.map (fun p => cr (enc p.1)) cursor :=
    List.map_congr_left (fun q _ => by simp [hico])
  rw [hmap]

theorem rate_payload_length {F : Type} (cursor : List (F × Nat)) :
    (rate_payload cursor).length = 4 * cursor.length := by
  induction cursor with
  | nil => rfl
  | cons p rest ih =>
    simp only [rate_payload, List.map_cons, List.flatten_cons,
      List.length_append, length_to_bytes, List.length_cons] at ih ⊢
    omega

/-- Decoding a concatenation of 4-byte little-endian blocks recovers the
encoded values. -/
theorem decode_u32s_blocks (xs : List Nat) (hxs : ∀ x ∈ xs, x < 2 ^ 32) :
    decode_u32s ((xs.map (fun x => to_bytes x 4)).flatten) = xs := by
  induction xs with
  | nil => rfl
  | cons x rest ih =>
    have hxlt := hxs x (List.mem_cons_self _ _)
    have hrest := fun y hy => hxs y (List.mem_cons_of_mem _ hy)
    simp only [List.map_cons, List.flatten_cons]
    have h4 : to_bytes x 4 ++ (rest.map (fun x => to_bytes x 4)).flatten
        = x % 256 :: (x / 256 % 256 :: (x / 256 / 256 % 256
          :: (x / 256 / 256 / 256 % 256
            :: (rest.map (fun x => to_bytes x 4)).flatten))) := rfl
    rw [h4]
    simp only [decode_u32s]
    rw [ih hrest]
    congr 1
    have hto : to_int [x % 256, x / 256 % 256, x / 256 / 256 % 256,
        x / 256 / 256 / 256 % 256] = to_int (to_bytes x 4) := rfl
    rw [hto]
    exact to_int_to_bytes_of_lt x hxlt

/-- Decoding the rate payload written by `AniFormat.write` overrides the
rates with the per-frame jiffy counts. -/
theorem rate_chunk_payload {F : Type} (hd : Header) (cursor : List (F × Nat))
    (d : AniData F) (hsteps : hd.num_steps = cursor.length)
    (hb : ∀ p ∈ cursor, pyRound (p.2 * 60) 1000 < 2 ^ 32) :
    rate_chunk (some hd) (rate_payload cursor) d
      = .ok { d with rate := some (cursor.map (fun p => pyRound (p.2 * 60) 1000)) } := by
  have hform : rate_payload cursor
      = ((cursor.map (fun p => pyRound (p.2 * 60) 1000)).map
          (fun x => to_bytes x 4)).flatten := by
    rw [rate_payload, List.map_map]
    rfl
  simp only [rate_chunk]
  rw [if_neg (by
    rw [rate_payload_length, hsteps, Nat.mul_div_cancel_left _ (by norm_num)]
    exact fun hcon => hcon rfl)]
  rw [hform, decode_u32s_blocks _ (by
    intro y hy
    obtain ⟨q, hq, rfl⟩ := List.mem_map.mp hy
    exact hb q hq)]

/-- The assembly loop over the identity step sequence and the write-side
jiffy rates reconstructs the original cursor whenever every delay survives
the jiffy quantization exactly. -/
theorem assembleLoop_defaults {F : Type} (full : List (F × Nat)) :
    ∀ (tail : List (F × Nat)) (k : Nat), full.drop k = tail →
    (∀ p ∈ tail, pyRound (p.2 * 60) 1000 * 1000 / 60 = p.2) →
    assembleLoop ((List.range' k tail.length).zip
        (tail.map (fun p => pyRound (p.2 * 60) 1000))) (some (full.map Prod.fst))
      = .ok tail := by
  intro tail
  induction tail with
  | nil => intro k _ _; rfl
  | cons p t ih =>
    intro k hdrop hd
    have hk : full[k]? = some p := by
      have h0 : (full.drop k)[0]? = full[k + 0]? := List.getElem?_drop full k 0
      rw [hdrop] at h0
      simpa using h0.symm
    obtain ⟨hklt, hget⟩ := List.getElem?_eq_some.mp hk
    have hmaplen : k < (full.map Prod.fst).length := by
      rw [List.length_map]; exact hklt
    rw [List.length_cons, List.map_cons, List.range'_succ, List.zip_cons_cons,
      assembleLoop]
    rw [dif_pos hmaplen]
    have hrec : assembleLoop ((List.range' (k + 1) t.length).zip
        (t.map (fun p => pyRound (p.2 * 60) 1000))) (some (full.map Prod.fst))
        = .ok t := by
      apply ih (k + 1)
      · rw [show k + 1 = k + 1 from rfl, ← List.drop_drop 1 k, hdrop, List.drop_one]
        rfl
      · exact fun q hq => hd q (List.mem_cons_of_mem _ hq)
    rw [hrec]
    have hgetm : (full.map Prod.fst).get ⟨k, hmaplen⟩ = p.1 := by
      rw [List.get_eq_getElem, List.getElem_map, hget]
    rw [hgetm, hd p (List.mem_cons_self _ _)]

/-- One successful step of the dispatch loop. -/
theorem processChunks_cons_ok {F : Type} (cr br : List Nat → F)
    (tag : List Nat) (sz : Nat) (pl : List Nat)
    (rest : List (List Nat × Nat × List Nat)) (d d2 : AniData F)
    (h : (if tag = anihTag then header_chunk d.header pl d
       else if tag = listTag then list_chunk cr br d.header pl d
       else if tag = rateTag then rate_chunk d.header pl d
       else if tag = seqTag then seq_chunk d.header pl d
       else .ok d) = .ok d2) :
    processChunks cr br ((tag, sz, pl) :: rest) d = processChunks cr br rest d2 := by
  rw [processChunks, h]

/-- Unfolding of `AniFormat.read` on a stream positioned at the start. -/
theorem read_unfold {F : Type} (cr br : List Nat → F) (bs : List Nat) :
    read cr br ⟨bs, 0⟩ = if check (bs.take 12) then
      (match processChunks cr br (read_chunks (bs.drop (0 + (bs.take 12).length)) [])
          ⟨none, none, none, none⟩ with
        | .error e => .error e
        | .ok d => assemble d)
      else .error .notAni := rfl

/-! ### Claim theorems -/

set_option maxRecDepth 8192 in
/-- C7 counterexample: the claim states that after `write` returns, the
stream position is left at the end of the stream.  On the empty cursor the
produced stream is 76 bytes long but the final position is 8 — `write` ends
with `out.seek(4); out.write(...)` and never seeks back to the end. -/
theorem C7_position_counterexample :
    (write (fun b : List Nat => b) [] ⟨[], 0⟩).pos = 8
    ∧ (write (fun b : List Nat => b) [] ⟨[], 0⟩).data.length = 76
    ∧ (8 : Nat) ≠ 76 :=
  ⟨rfl, rfl, by decide⟩

/-- C7 (amended): after `write` into an initially empty stream, bytes 4–7
of the output hold, as a little-endian u32, the total length computed as
final stream length minus 8; the stream position, however, is left at byte
8 (just past the backpatched field), not at the end of the stream. -/
theorem C7_backpatch {F : Type} (enc : F → List Nat) (cursor : List (F × Nat)) :
    ((write enc cursor ⟨[], 0⟩).data.drop 4).take 4
        = to_bytes ((write enc cursor ⟨[], 0⟩).data.length - 8) 4
    ∧ (write enc cursor ⟨[], 0⟩).pos = 8 := by
  rw [write_eq]
  refine ⟨?_, rfl⟩
  show ((fileAni enc cursor).drop 4).take 4 = _
  have hdrop : (fileAni enc cursor).drop 4
      = to_bytes (12 + (contentTail enc cursor).length - 8) 4
        ++ (ACON_MAGIC ++ contentTail enc cursor) := by
    simp only [fileAni]
    exact List.drop_left' rfl
  rw [hdrop, List.take_left' (length_to_bytes _ _)]
  congr 1
  simp [fileAni, RIFF_MAGIC, ACON_MAGIC, length_to_bytes, List.length_append]
  omega

/-- C8: `check` returns true exactly when bytes 0–3 are the RIFF marker and
bytes 8–11 are the ACON form marker; bytes 4–7 are never examined (replacing
them never changes the result). -/
theorem C8_check_characterisation (bs : List Nat) (hlen : 12 ≤ bs.length) :
    ((check bs = true) ↔
      (bs.take 4 = RIFF_MAGIC ∧ (bs.drop 8).take 4 = ACON_MAGIC))
    ∧ ∀ a mid mid' rest : List Nat, a.length = 4 → mid.length = 4 →
        mid'.length = 4 → check (a ++ (mid ++ rest)) = check (a ++ (mid' ++ rest)) := by
  constructor
  · simp [check]
  · intro a mid mid' rest ha hm hm'
    have ht : ∀ m : List Nat, m.length = 4 →
        check (a ++ (m ++ rest)) = ((a == RIFF_MAGIC) && (rest.take 4 == ACON_MAGIC)) := by
      intro m hmlen
      have h1 : (a ++ (m ++ rest)).take 4 = a := List.take_left' ha
      have h2 : (a ++ (m ++ rest)).drop 8 = rest := by
        have : a ++ (m ++ rest) = (a ++ m) ++ rest := by simp [List.append_assoc]
        rw [this]
        exact List.drop_left' (by rw [List.length_append, ha, hmlen])
      rw [check, h1, h2]
    rw [ht mid hm, ht mid' hm']

/-- C8 witness: a concrete check with scrambled bytes 4–7 still accepts, and
replacing bytes 4–7 does not change the result. -/
theorem C8_check_characterisation_witness :
    check [82, 73, 70, 70, 5, 6, 7, 8, 65, 67, 79, 78] = true
    ∧ check (RIFF_MAGIC ++ ([0, 0, 0, 0] ++ ACON_MAGIC))
        = check (RIFF_MAGIC ++ ([9, 9, 9, 9] ++ ACON_MAGIC)) := by
  have h := C8_check_characterisation [82, 73, 70, 70, 5, 6, 7, 8, 65, 67, 79, 78]
    (by decide)
  exact ⟨h.1.mpr (by decide), h.2 RIFF_MAGIC [0, 0, 0, 0] [9, 9, 9, 9] ACON_MAGIC
    rfl rfl rfl⟩

/-- C4: evaluating `read_chunks` at a stream of two well-formed chunks with
the first chunk's tag in the skip set shows the skip branch desynchronizing
the reader.  Only the four tag bytes of the skipped chunk are consumed, so
the skipped chunk's length field `[4,0,0,0]` is misread as the next tag and
its payload bytes `"AAAA"` as a (huge) length, swallowing the rest of the
stream; the following well-formed `"good"` chunk is never yielded.  Without
the skip set the same stream tokenizes correctly, showing the stream itself
is well-formed. -/
theorem C4_skip_desync :
    read_chunks skipDemoStream [[115, 107, 105, 112]]
        = [([4, 0, 0, 0], 1094795585, [103, 111, 111, 100, 0, 0, 0, 0])]
    ∧ ([103, 111, 111, 100], 0, ([] : List Nat))
        ∉ read_chunks skipDemoStream [[115, 107, 105, 112]]
    ∧ read_chunks skipDemoStream []
        = [([115, 107, 105, 112], 4, [65, 65, 65, 65]),
           ([103, 111, 111, 100], 0, [])] :=
  ⟨rfl, by decide, rfl⟩

/-- C9 counterexample: a declared length of 10 with only 2 payload bytes
remaining yields a truncated chunk (payload length 2, declared 10) instead
of failing — the invariant `len(payload) == declared length` does not hold
and no short read is treated as fatal. -/
theorem C9_truncation_counterexample :
    read_chunks ([116, 97, 103, 33] ++ ([10, 0, 0, 0] ++ [1, 2])) []
        = [([116, 97, 103, 33], 10, [1, 2])]
    ∧ ([1, 2] : List Nat).length ≠ 10 :=
  ⟨rfl, by decide⟩

/-- C9 (amended): every yielded triple satisfies `len(payload) ≤ declared
length` (with equality only when enough bytes remain — a short read yields a
truncated chunk rather than raising), the yielded tag is nonempty and at
most 4 bytes, and end-of-stream at a chunk boundary yields an empty
remainder. -/
theorem C9_payload_at_most_declared (bs : List Nat) (skip : List (List Nat))
    (t : List Nat) (sz : Nat) (pl : List Nat)
    (h : (t, sz, pl) ∈ read_chunks bs skip) :
    (pl.length ≤ sz ∧ t ≠ [] ∧ t.length ≤ 4) ∧ read_chunks [] skip = [] :=
  ⟨read_chunks_mem bs skip t sz pl h, read_chunks_nil skip⟩

/-- C9 witness: the amended invariant evaluated on the truncated stream. -/
theorem C9_payload_at_most_declared_witness :
    ((([1, 2] : List Nat).length ≤ 10 ∧ ([116, 97, 103, 33] : List Nat) ≠ []
        ∧ ([116, 97, 103, 33] : List Nat).length ≤ 4)
      ∧ read_chunks [] [] = []) :=
  C9_payload_at_most_declared ([116, 97, 103, 33] ++ ([10, 0, 0, 0] ++ [1, 2])) []
    [116, 97, 103, 33] 10 [1, 2] (by decide)

/-- C3 counterexample: with `num_steps = 1`, a 6-byte payload (not a
multiple of 4) is accepted by both `_seq_chunk` and `_rate_chunk` because
the guard uses the floor division `len(data) // 4`, and it decodes to TWO
entries, the last from a partial 2-byte group — the claim that any payload
whose length is not a multiple of `4 * step_count` fails with a
length-mismatch violation is false. -/
theorem C3_floor_division_counterexample :
    seq_chunk (some hdr1) [1, 0, 0, 0, 2, 0] d0
        = .ok { d0 with seq := some [1, 2] }
    ∧ rate_chunk (some hdr1) [1, 0, 0, 0, 2, 0] d0
        = .ok { d0 with rate := some [1, 2] }
    ∧ ([1, 0, 0, 0, 2, 0] : List Nat).length ≠ 4 * hdr1.num_steps :=
  ⟨rfl, rfl, by decide⟩

/-- C3 (amended): after a header, a `seq `/`rate` payload is accepted if and
only if `len(payload) // 4 == step_count` (floor division, so lengths
`4*step_count .. 4*step_count+3` are all accepted, a trailing remainder
silently decoding to one extra partial entry); only payloads with
`len(payload) // 4 ≠ step_count` fail with the length-mismatch violation. -/
theorem C3_length_check {F : Type} (h : Header) (data : List Nat)
    (d : AniData F) :
    (data.length / 4 = h.num_steps →
      seq_chunk (some h) data d = .ok { d with seq := some (decode_u32s data) }
      ∧ rate_chunk (some h) data d = .ok { d with rate := some (decode_u32s data) })
    ∧ (data.length / 4 ≠ h.num_steps →
      seq_chunk (some h) data d = .error .seqLenMismatch
      ∧ rate_chunk (some h) data d = .error .rateLenMismatch) := by
  constructor <;> intro hlen <;> simp [seq_chunk, rate_chunk, hlen]

/-- C3 witness: the amended behaviour at concrete payloads (an exact 4-byte
payload is accepted, an 8-byte payload against a 1-step header fails). -/
theorem C3_length_check_witness :
    (seq_chunk (some hdr1) [1, 0, 0, 0] d0 = .ok { d0 with seq := some [1] }
      ∧ rate_chunk (some hdr1) [1, 0, 0, 0] d0 = .ok { d0 with rate := some [1] })
    ∧ (seq_chunk (some hdr1) [1, 0, 0, 0, 2, 0, 0, 0] d0 = .error .seqLenMismatch
      ∧ rate_chunk (some hdr1) [1, 0, 0, 0, 2, 0, 0, 0] d0 = .error .rateLenMismatch) :=
  ⟨(C3_length_check hdr1 [1, 0, 0, 0] d0).1 (by decide),
    (C3_length_check hdr1 [1, 0, 0, 0, 2, 0, 0, 0] d0).2 (by decide)⟩

/-- C2 counterexample: decoding a structurally valid container whose `rate`
chunk holds the single rate value 1 jiffy yields the delay
`int((1 * 1000) / 60) = 16` milliseconds, while the claim's
`round(1 * 1000 / 60)` is 17 — the decode conversion truncates instead of
rounding, so the claim fails at the boundary value r = 1. -/
theorem C2_rate_truncation_counterexample :
    read (fun b : List Nat => b) (fun b => b) ⟨rateDemoAni, 0⟩
        = .ok [([7], 16)]
    ∧ pyRound (1 * 1000) 60 = 17 ∧ (16 : Nat) ≠ 17 :=
  ⟨rfl, by decide, by decide⟩

/-- C2 (amended): every delay produced by the assembly loop of `read` is
`int((rate * 1000) / 60)`, i.e. the FLOOR of `rate * 1000 / 60`, not its
rounding (the two agree exactly when 60 divides `rate * 1000`, e.g. at
r = 6 and r = 60, but differ at r = 1). -/
theorem C2_rate_floor_conversion {F : Type} (pairs : List (Nat × Nat))
    (lst : List F) (res : List (F × Nat))
    (h : assembleLoop pairs (some lst) = .ok res) :
    res.map Prod.snd = pairs.map (fun p => p.2 * 1000 / 60) := by
  induction pairs generalizing res with
  | nil =>
    rw [assembleLoop] at h
    cases h
    rfl
  | cons p rest ih =>
    obtain ⟨idx, rate⟩ := p
    rw [assembleLoop] at h
    split at h
    · rename_i hlt
      cases heq : assembleLoop rest (some lst) with
      | error e => rw [heq] at h; cases h
      | ok tl =>
        rw [heq] at h
        cases h
        simp only [List.map_cons]
        rw [ih tl heq]
    · cases h

/-- C2 witness: the floor conversion evaluated at one concrete pair. -/
theorem C2_rate_floor_conversion_witness :
    ([(([42] : List Nat), 1666)]).map Prod.snd
      = [((0 : Nat), (100 : Nat))].map (fun p => p.2 * 1000 / 60) :=
  C2_rate_floor_conversion [(0, 100)] [[42]] [([42], 1666)] rfl

/-- C10: a structurally valid container whose `seq ` chunk contains the
entry 5 against a one-icon frame list makes the final assembly step fail
with an index error — an error distinct from every named structural
violation — and `read` returns no result at all. -/
theorem C10_no_bounds_check :
    read (fun b : List Nat => b) (fun b => b) ⟨oobSeqAni, 0⟩
        = .error .indexError
    ∧ PyError.indexError ∉
        [PyError.twoHeaders, PyError.listBeforeHeader, PyError.listNoFram,
          PyError.seqBeforeHeader, PyError.seqLenMismatch,
          PyError.rateBeforeHeader, PyError.rateLenMismatch, PyError.notAni] :=
  ⟨rfl, by decide⟩


/-- C5: for every chunk sequence containing no explicit `seq ` or `rate`
chunk, if the dispatch loop succeeds from the fresh decode context and ends
with a header present, then the context holds the default StepSequence
`[i % frame_count for i in range(step_count)]` and the default StepRates
`[display_rate] * step_count`. -/
theorem C5_default_seq_rate {F : Type} (cr br : List Nat → F)
    (chunks : List (List Nat × Nat × List Nat)) (d' : AniData F) (hd : Header)
    (hno : ∀ c ∈ chunks, c.1 ≠ seqTag ∧ c.1 ≠ rateTag)
    (hok : processChunks cr br chunks ⟨none, none, none, none⟩ = .ok d')
    (hhd : d'.header = some hd) (hfr : 1 ≤ hd.num_frames) :
    d'.seq = some ((List.range hd.num_steps).map (· % hd.num_frames))
    ∧ d'.rate = some (List.replicate hd.num_steps hd.display_rate) := by
  rcases processChunks_no_explicit cr br chunks _ _ hno hok with h | ⟨hd2, h1, h2, h3⟩
  · rw [h.1] at hhd; cases hhd
  · rw [h1] at hhd
    obtain rfl : hd2 = hd := Option.some_inj.mp hhd
    exact ⟨h2, h3⟩

/-- C5 witness: dispatching one `anih` chunk whose header declares
`num_frames = 2`, `num_steps = 5`, `display_rate = 7` yields the defaults
StepSequence `[0,1,0,1,0]` and StepRates `[7,7,7,7,7]`. -/
theorem C5_default_seq_rate_witness :
    (⟨some ⟨2, 5, 0, 0, 0, 1, 7, false, true⟩, some [0, 1, 0, 1, 0],
        some [7, 7, 7, 7, 7], none⟩ : AniData (List Nat)).seq
      = some ((List.range 5).map (· % 2))
    ∧ (⟨some ⟨2, 5, 0, 0, 0, 1, 7, false, true⟩, some [0, 1, 0, 1, 0],
        some [7, 7, 7, 7, 7], none⟩ : AniData (List Nat)).rate
      = some (List.replicate 5 7) :=
  C5_default_seq_rate (fun b : List Nat => b) (fun b => b)
    [(anihTag, 36,
      [36, 0, 0, 0, 2, 0, 0, 0, 5, 0, 0, 0, 0, 0, 0, 0, 0, 0, 0, 0,
       0, 0, 0, 0, 0, 0, 0, 0, 7, 0, 0, 0, 1, 0, 0, 0])]
    ⟨some ⟨2, 5, 0, 0, 0, 1, 7, false, true⟩, some [0, 1, 0, 1, 0],
      some [7, 7, 7, 7, 7], none⟩
    ⟨2, 5, 0, 0, 0, 1, 7, false, true⟩
    (by decide) (by rfl) rfl (by decide)

/-- C6: each structural violation is detected at the violating chunk — a
second `anih` header raises the duplicate-header error, a `LIST`/`seq `/
`rate` chunk before any header raises the corresponding before-header
error, a `LIST` payload not starting with `"fram"` raises the bad-marker
error — and whenever chunk processing raises, the whole `read` call returns
an error and never an `.ok` result. -/
theorem C6_structural_violations {F : Type} (cr br : List Nat → F)
    (h : Header) (data : List Nat) (d : AniData F) :
    header_chunk (some h) data d = .error .twoHeaders
    ∧ list_chunk cr br none data d = .error .listBeforeHeader
    ∧ seq_chunk none data d = .error .seqBeforeHeader
    ∧ rate_chunk none data d = .error .rateBeforeHeader
    ∧ (data.take 4 ≠ framTag → list_chunk cr br (some h) data d = .error .listNoFram)
    ∧ (∀ (s : ByteStream) (e : PyError),
        processChunks cr br
            (read_chunks ((s.readBytes 12).2.data.drop (s.readBytes 12).2.pos) [])
            ⟨none, none, none, none⟩ = .error e →
        ∀ res : List (F × Nat), read cr br s ≠ .ok res) := by
  refine ⟨rfl, rfl, rfl, rfl, ?_, ?_⟩
  · intro hn
    simp only [list_chunk]
    rw [if_pos hn]
  · intro s e hproc res
    simp only [read]
    by_cases hc : check (s.readBytes 12).1
    · rw [if_pos hc, hproc]
      simp
    · rw [if_neg hc]
      simp

/-- C6 witness: the violations evaluated concretely — a duplicate header, a
bad `LIST` marker, and a whole-container decode with two `anih` chunks that
returns no result. -/
theorem C6_structural_violations_witness :
    header_chunk (some hdr1) [] (⟨none, none, none, none⟩ : AniData (List Nat))
        = .error .twoHeaders
    ∧ list_chunk (fun b : List Nat => b) (fun b => b) (some hdr1) [9, 9, 9, 9]
        ⟨none, none, none, none⟩ = .error .listNoFram
    ∧ read (fun b : List Nat => b) (fun b => b) ⟨dupHeaderAni, 0⟩ ≠ .ok [] :=
  ⟨(C6_structural_violations (fun b : List Nat => b) (fun b => b) hdr1 []
      ⟨none, none, none, none⟩).1,
    (C6_structural_violations (fun b : List Nat => b) (fun b => b) hdr1 [9, 9, 9, 9]
      ⟨none, none, none, none⟩).2.2.2.2.1 (by decide),
    (C6_structural_violations (fun b : List Nat => b) (fun b => b) hdr1 []
      ⟨none, none, none, none⟩).2.2.2.2.2 ⟨dupHeaderAni, 0⟩ .twoHeaders rfl []⟩

/-- C1: round trip.  For every nonempty timed frame sequence whose length
and encoded payload sizes fit the 4-byte length fields and whose per-step
delays survive the jiffy quantization exactly
(`int(round(d*60/1000)*1000/60) = d`, using the code's own conversions:
round half-to-even on write, float truncation on read), and assuming the
opaque icon-container codec round-trips every frame
(`CurFormat.read(CurFormat.write(f)) = f`), decoding the bytes produced by
`write` yields the original sequence. -/
theorem C1_round_trip {F : Type} (enc : F → List Nat) (dec br : List Nat → F)
    (cursor : List (F × Nat))
    (hne : cursor ≠ [])
    (hcount : cursor.length < 2 ^ 32)
    (hdec : ∀ f : F, dec (enc f) = f)
    (henc : ∀ p ∈ cursor, (enc p.1).length < 2 ^ 32)
    (hlist : (list_payload enc cursor).length < 2 ^ 32)
    (hsteps : 4 * cursor.length < 2 ^ 32)
    (hdelay : ∀ p ∈ cursor, pyRound (p.2 * 60) 1000 < 2 ^ 32
        ∧ pyRound (p.2 * 60) 1000 * 1000 / 60 = p.2) :
    read dec br ⟨(write enc cursor ⟨[], 0⟩).data, 0⟩ = .ok cursor := by
  rw [write_eq]
  show read dec br ⟨fileAni enc cursor, 0⟩ = .ok cursor
  have htagA : anihTag.take 4 = anihTag := rfl
  have htagL : listTag.take 4 = listTag := rfl
  have htagR : rateTag.take 4 = rateTag := rfl
  -- the 12-byte prologue and its complement
  have hpre12 : (RIFF_MAGIC ++ (to_bytes (12 + (contentTail enc cursor).length - 8) 4
      ++ ACON_MAGIC)).length = 12 := by
    simp [RIFF_MAGIC, ACON_MAGIC, length_to_bytes]
  have hpre : fileAni enc cursor
      = (RIFF_MAGIC ++ (to_bytes (12 + (contentTail enc cursor).length - 8) 4
          ++ ACON_MAGIC)) ++ contentTail enc cursor := by
    simp [fileAni, List.append_assoc]
  have htake12 : (fileAni enc cursor).take 12
      = RIFF_MAGIC ++ (to_bytes (12 + (contentTail enc cursor).length - 8) 4
          ++ ACON_MAGIC) := by
    rw [hpre]; exact List.take_left' hpre12
  have hdrop12 : (fileAni enc cursor).drop 12 = contentTail enc cursor := by
    rw [hpre]; exact List.drop_left' hpre12
  have hcheck : check (RIFF_MAGIC ++ (to_bytes (12 + (contentTail enc cursor).length - 8) 4
      ++ ACON_MAGIC)) = true := by
    have hc1 : (RIFF_MAGIC ++ (to_bytes (12 + (contentTail enc cursor).length - 8) 4
        ++ ACON_MAGIC)).take 4 = RIFF_MAGIC := List.take_left' rfl
    have hc2 : (RIFF_MAGIC ++ (to_bytes (12 + (contentTail enc cursor).length - 8) 4
        ++ ACON_MAGIC)).drop 8 = ACON_MAGIC := by
      rw [show RIFF_MAGIC ++ (to_bytes (12 + (contentTail enc cursor).length - 8) 4
            ++ ACON_MAGIC)
          = (RIFF_MAGIC ++ to_bytes (12 + (contentTail enc cursor).length - 8) 4)
            ++ ACON_MAGIC by simp [List.append_assoc]]
      exact List.drop_left' (by simp [RIFF_MAGIC, length_to_bytes])
    rw [check, hc1, hc2]
    rfl
  -- the chunk list
  have hchunks : read_chunks (contentTail enc cursor) []
      = [(anihTag, (buildHeader cursor.length).length, buildHeader cursor.length),
         (listTag, (list_payload enc cursor).length, list_payload enc cursor),
         (rateTag, (rate_payload cursor).length, rate_payload cursor)] := by
    rw [show contentTail enc cursor
        = anihTag ++ (to_bytes (buildHeader cursor.length).length 4
          ++ (buildHeader cursor.length
            ++ (chunkBytes listTag (list_payload enc cursor)
              ++ chunkBytes rateTag (rate_payload cursor)))) by
      simp [contentTail, chunkBytes, htagA, List.append_assoc]]
    rw [read_chunks_wf anihTag (buildHeader cursor.length)
      (chunkBytes listTag (list_payload enc cursor)
        ++ chunkBytes rateTag (rate_payload cursor)) [] rfl (List.not_mem_nil _)
      (by rw [buildHeader_length]; norm_num)]
    rw [show chunkBytes listTag (list_payload enc cursor)
          ++ chunkBytes rateTag (rate_payload cursor)
        = listTag ++ (to_bytes (list_payload enc cursor).length 4
          ++ (list_payload enc cursor ++ chunkBytes rateTag (rate_payload cursor))) by
      simp [chunkBytes, htagL, List.append_assoc]]
    rw [read_chunks_wf listTag (list_payload enc cursor)
      (chunkBytes rateTag (rate_payload cursor)) [] rfl (List.not_mem_nil _) hlist]
    rw [show chunkBytes rateTag (rate_payload cursor)
        = rateTag ++ (to_bytes (rate_payload cursor).length 4
          ++ (rate_payload cursor ++ [])) by simp [chunkBytes, htagR]]
    rw [read_chunks_wf rateTag (rate_payload cursor) [] [] rfl (List.not_mem_nil _)
      (by rw [rate_payload_length]; omega)]
    rfl
  -- the dispatch loop
  have hmapdec : cursor.map (fun p => dec (enc p.1)) = cursor.map Prod.fst :=
    List.map_congr_left (fun q _ => by rw [hdec])
  have hproc : processChunks dec br (read_chunks (contentTail enc cursor) [])
      (⟨none, none, none, none⟩ : AniData F)
      = .ok ⟨some (writeHeaderRec cursor.length),
          some ((List.range cursor.length).map (· % cursor.length)),
          some (cursor.map (fun p => pyRound (p.2 * 60) 1000)),
          some (cursor.map Prod.fst)⟩ := by
    rw [hchunks]
    rw [processChunks_cons_ok dec br anihTag (buildHeader cursor.length).length
      (buildHeader cursor.length) _ _ _
      (by rw [if_pos rfl]
          exact header_chunk_buildHeader cursor.length hcount _)]
    rw [processChunks_cons_ok dec br listTag (list_payload enc cursor).length
      (list_payload enc cursor) _ _ _
      (by rw [if_neg (by decide), if_pos rfl]
          exact list_chunk_payload dec br enc (writeHeaderRec cursor.length) rfl
            cursor henc _)]
    rw [processChunks_cons_ok dec br rateTag (rate_payload cursor).length
      (rate_payload cursor) _ _ _
      (by rw [if_neg (by decide), if_neg (by decide), if_pos rfl]
          exact rate_chunk_payload (writeHeaderRec cursor.length) cursor _ rfl
            (fun p hp => (hdelay p hp).1))]
    rw [show cursor.map (fun p => dec (enc p.1)) = cursor.map Prod.fst from hmapdec]
    rfl
  -- run the reader
  rw [read_unfold, htake12, if_pos hcheck, hpre12,
    show (0 + 12 : Nat) = 12 from rfl, hdrop12, hproc]
  show assembleLoop
      (((List.range cursor.length).map (· % cursor.length)).zip
        (cursor.map (fun p => pyRound (p.2 * 60) 1000)))
      (some (cursor.map Prod.fst)) = .ok cursor
  rw [range_mod_self, List.range_eq_range']
  exact assembleLoop_defaults cursor cursor 0 (List.drop_zero cursor)
    (fun p hp => (hdelay p hp).2)

/-- C1 witness: a one-frame sequence with delay 50 ms (which survives the
jiffy quantization: 50 ms is exactly 3 jiffies) decodes from its own
encoding. -/
theorem C1_round_trip_witness :
    read (fun b : List Nat => b) (fun b => b)
        ⟨(write (fun b : List Nat => b) [([7], 50)] ⟨[], 0⟩).data, 0⟩
      = .ok [([7], 50)] :=
  C1_round_trip (fun b => b) (fun b => b) (fun b => b) [([7], 50)]
    (by decide) (by decide) (fun f => rfl) (by decide) (by decide) (by decide)
    (by decide)

end Ani
